import Mathlib

/-!
Verification development for the plan/validate/execute pipeline of the
UAV multi-agent repository (`src/agents/multi/tools_node.py`,
`src/agents/multi/coordinator.py`, `src/agents/multi/plan_schema.py`,
`src/tools/uav_tools.py`).

Modelling conventions:
* Python argument values (`args` dict entries) are modelled by `PyVal`:
  strings, numbers (Python `int`/`float`/`bool` unified as `ℚ` — every
  comparison and constant the validator uses is exact on rationals),
  `None` (`PyVal.null`) and an opaque `other` for any value that is
  neither a string nor numeric.
* Python dicts are association lists with first-match lookup and
  in-place update (`dictGet`/`dictSet`).
* Real-time data (timestamps, durations) and uuid generation are not
  modelled; the corresponding fields are either omitted or plain strings,
  since no verified property depends on them.
* The external fleet API client is modelled by `Client`: the outcome of
  `client.list_drones()` as seen by the validator (`none` = the call
  raised, or returned an empty/falsy roster).
* Python's `float(...)` string coercion is an abstract parameter
  `pf : String → Option ℚ` (`none` = `ValueError`); no verified property
  depends on its exact semantics.
-/

inductive PyVal where
  | str : String → PyVal
  | num : ℚ → PyVal
  | null : PyVal
  | other : PyVal
deriving DecidableEq, Inhabited

abbrev PyDict := List (String × PyVal)

/-- Python dict lookup: `d.get(k)` / `k in d`. -/
def dictGet (d : PyDict) (k : String) : Option PyVal :=
  (d.find? (fun p => p.1 == k)).map Prod.snd

/-- Python dict assignment `d[k] = v`: replace the binding if present,
otherwise append. -/
def dictSet (d : PyDict) (k : String) (v : PyVal) : PyDict :=
  if d.any (fun p => p.1 == k) then
    d.map (fun p => if p.1 == k then (k, v) else p)
  else
    d ++ [(k, v)]

/-- Structure `PlanStep` from `plan_schema.py` (real-time/uuid fields are plain data). -/
structure PlanStep where
  step_id : String
  tool_name : String
  args : PyDict := []
  rationale : String := ""
  expected_effect : String := ""
  dependencies : List String := []
  status : String := "pending"
  error_message : Option String := none
deriving DecidableEq, Inhabited

/-- Structure `ValidationFix` from `plan_schema.py`. -/
structure ValidationFix where
  step_id : String
  fix_type : String
  original_value : PyVal := PyVal.null
  fixed_value : PyVal := PyVal.null
  reason : String := ""
deriving DecidableEq, Inhabited

/-- Structure `Plan` from `plan_schema.py` (`plan_id`/`created_at` modelled as given
strings rather than generated). -/
structure Plan where
  plan_id : String := ""
  user_intent : String := ""
  steps : List PlanStep := []
  rationale : String := ""
  created_at : String := ""
  status : String := "draft"
deriving DecidableEq, Inhabited

/-- Structure `ValidatedPlan` from `plan_schema.py`. -/
structure ValidatedPlan where
  plan_id : String
  normalized_steps : List PlanStep
  fixes : List ValidationFix := []
  validation_warnings : List String := []
  is_valid : Bool := true
deriving DecidableEq, Inhabited

/-- Structure `ExecutionResult` from `plan_schema.py` (`duration_ms`/`timestamp`
are real-time data, not modelled). -/
structure ExecutionResult where
  step_id : String
  success : Bool
  output : PyVal := PyVal.null
  error : Option String := none
deriving DecidableEq, Inhabited

/-- One entry of the `errors` list of an `ExecutionReport`
(a Python dict `{"step_id": ..., "error": ...}`). -/
structure ErrEntry where
  step_id : String
  error : String
deriving DecidableEq, Inhabited

/-- Structure `ExecutionReport` from `plan_schema.py` (`started_at`/`completed_at`
are real-time data, not modelled). -/
structure ExecutionReport where
  plan_id : String
  execution_results : List ExecutionResult
  errors : List ErrEntry := []
  final_status : String := "completed"
  summary : String := ""
deriving DecidableEq, Inhabited

/-- The tool catalog of `UAVToolsRegistry._register_all_tools`, in
registration (= dict iteration) order. -/
def availableToolNames : List String :=
  ["list_drones", "get_session_info", "get_task_progress", "get_weather",
   "get_drone_status", "get_nearby_entities",
   "take_off", "land", "move_to", "move_towards", "change_altitude",
   "hover", "rotate", "return_home",
   "set_home", "calibrate", "take_photo", "charge",
   "send_message", "broadcast"]

/-- Test that `lst1` is a prefix of `lst2` (kernel-friendly Bool computation). -/
def listPrefixOf : List Char → List Char → Bool
  | [], _ => true
  | _ :: _, [] => false
  | a :: as, b :: bs => a == b && listPrefixOf as bs

/-- Test that `needle` occurs as a contiguous sublist of `hay`. -/
def listSubstr (needle : List Char) : List Char → Bool
  | [] => listPrefixOf needle []
  | c :: t => listPrefixOf needle (c :: t) || listSubstr needle t

/-- Python `needle in hay` on strings (substring test). -/
def pyInStr (needle hay : String) : Bool :=
  listSubstr needle.data hay.data

/-- Python `s.startswith(pre)`. -/
def pyStartsWith (s pre : String) : Bool :=
  listPrefixOf pre.data s.data

/-- Python `s.lower()` (ASCII, as used on tool names). -/
def pyLower (s : String) : String :=
  String.mk (s.data.map Char.toLower)

/-- Python `s.upper()` (ASCII, as used on coordinate names). -/
def pyUpper (s : String) : String :=
  String.mk (s.data.map Char.toUpper)

/-- Python `sep.join(lst)`. -/
def pyJoin (sep : String) : List String → String
  | [] => ""
  | [x] => x
  | x :: y :: t => x ++ sep ++ pyJoin sep (y :: t)

/-- Embeds `ToolsNode._suggest_alternative_tool`: a bidirectional substring pass
over the catalog, then a 5-character prefix pass. -/
def suggestAlternativeTool (tool_name : String) : Option String :=
  let t := pyLower tool_name
  match availableToolNames.find?
      (fun a => pyInStr t (pyLower a) || pyInStr (pyLower a) t) with
  | some a => some a
  | none =>
      availableToolNames.find?
        (fun a => pyStartsWith (pyLower a) (String.mk (t.data.take 5)))

/-- The fleet API as seen by the validator: the outcome of
`client.list_drones()`. `none` means the call raised (or the roster was
falsy); `some ds` is a non-empty handling-relevant roster of drone dicts. -/
structure Client where
  listDrones : Option (List PyDict)

/-- The value `drones[0].get('id', drones[0].get('name'))` substituted for a
placeholder `drone_id`, when `list_drones()` succeeds with a non-empty
roster (`ToolsNode._validate_and_fix_parameters`, drone_id branch). -/
def resolveDroneRef (c : Client) : Option PyVal :=
  match c.listDrones with
  | none => none
  | some [] => none
  | some (d :: _) =>
      some (((dictGet d "id").orElse (fun _ => dictGet d "name")).getD PyVal.null)

/-- drone_id branch of `ToolsNode._validate_and_fix_parameters`: a string
value starting with `$` is resolved against the fleet roster; resolution
failure is swallowed silently. -/
def fixDroneId (c : Client) (sid : String) (args : PyDict) :
    PyDict × List ValidationFix :=
  match dictGet args "drone_id" with
  | some (PyVal.str s) =>
      if pyStartsWith s "$" then
        match resolveDroneRef c with
        | some v =>
            (dictSet args "drone_id" v,
             [{ step_id := sid, fix_type := "resolved_reference",
                original_value := PyVal.str s, fixed_value := v,
                reason := "Resolved drone_id reference" }])
        | none => (args, [])
      else (args, [])
  | _ => (args, [])

/-- altitude branch of `ToolsNode._validate_and_fix_parameters`. -/
def fixAltitude (sid : String) (args : PyDict) :
    PyDict × List ValidationFix :=
  match dictGet args "altitude" with
  | some (PyVal.num a) =>
      if a < 0 then
        (dictSet args "altitude" (PyVal.num 5),
         [{ step_id := sid, fix_type := "invalid_range",
            original_value := PyVal.num a, fixed_value := PyVal.num 5,
            reason := "Altitude cannot be negative, set to minimum" }])
      else if a > 500 then
        (dictSet args "altitude" (PyVal.num 120),
         [{ step_id := sid, fix_type := "invalid_range",
            original_value := PyVal.num a, fixed_value := PyVal.num 120,
            reason := "Altitude exceeds reasonable maximum, capped" }])
      else (args, [])
  | _ => (args, [])

/-- coordinate-coercion branch of `ToolsNode._validate_and_fix_parameters`
for one of the keys `x`/`y`/`z`. -/
def fixCoordParam (pf : String → Option ℚ) (sid key : String) (args : PyDict) :
    PyDict × List ValidationFix :=
  match dictGet args key with
  | some (PyVal.str s) =>
      match pf s with
      | some q => (dictSet args key (PyVal.num q), [])
      | none =>
          (dictSet args key (PyVal.num 0),
           [{ step_id := sid, fix_type := "invalid_type",
              original_value := PyVal.str s, fixed_value := PyVal.num 0,
              reason := "Could not convert " ++ key ++ " to number, set to 0" }])
  | _ => (args, [])

/-- Embeds `ToolsNode._validate_and_fix_parameters` (fixes applied in source
order: drone_id, altitude, then x/y/z coercion). -/
def validateAndFixParameters (c : Client) (pf : String → Option ℚ)
    (step : PlanStep) : PlanStep × List ValidationFix :=
  if availableToolNames.contains step.tool_name then
    let r1 := fixDroneId c step.step_id step.args
    let r2 := fixAltitude step.step_id r1.1
    let r3 := fixCoordParam pf step.step_id "x" r2.1
    let r4 := fixCoordParam pf step.step_id "y" r3.1
    let r5 := fixCoordParam pf step.step_id "z" r4.1
    ({ step with args := r5.1 }, r1.2 ++ r2.2 ++ r3.2 ++ r4.2 ++ r5.2)
  else
    (step, [])

/-- movement-coordinate branch of `ToolsNode._validate_physical_meaning`
for one of the keys `x`/`y`/`z`. -/
def fixMoveCoord (sid key : String) (args : PyDict) :
    PyDict × List ValidationFix :=
  match dictGet args key with
  | some (PyVal.num v) =>
      if |v| > 10000 then
        (dictSet args key (PyVal.num 0),
         [{ step_id := sid, fix_type := "physically_unreasonable",
            original_value := PyVal.num v, fixed_value := PyVal.num 0,
            reason := pyUpper key ++ " coordinate too large, likely error" }])
      else (args, [])
  | _ => (args, [])

/-- speed branch of `ToolsNode._validate_physical_meaning`. -/
def fixSpeed (sid : String) (args : PyDict) : PyDict × List ValidationFix :=
  match dictGet args "speed" with
  | some (PyVal.num s) =>
      if s > 50 then
        (dictSet args "speed" (PyVal.num 10),
         [{ step_id := sid, fix_type := "physically_unreasonable",
            original_value := PyVal.num s, fixed_value := PyVal.num 10,
            reason := "Speed too high, capped to safe value" }])
      else if s ≤ 0 then
        (dictSet args "speed" (PyVal.num 5),
         [{ step_id := sid, fix_type := "physically_unreasonable",
            original_value := PyVal.num s, fixed_value := PyVal.num 5,
            reason := "Speed must be positive, set to minimum" }])
      else (args, [])
  | _ => (args, [])

/-- Embeds `ToolsNode._validate_physical_meaning`. -/
def validatePhysicalMeaning (step : PlanStep) : PlanStep × List ValidationFix :=
  let r1 :=
    if ["move_to", "move_towards"].contains step.tool_name then
      let rx := fixMoveCoord step.step_id "x" step.args
      let ry := fixMoveCoord step.step_id "y" rx.1
      let rz := fixMoveCoord step.step_id "z" ry.1
      (rz.1, rx.2 ++ ry.2 ++ rz.2)
    else (step.args, [])
  let r2 := fixSpeed step.step_id r1.1
  ({ step with args := r2.1 }, r1.2 ++ r2.2)

/-- One iteration of the validation loop of `ToolsNode.validate_and_fix`:
the working copy `PlanStep.from_dict(step.to_dict())` is a fresh deep copy
with the same field values, so it is the step value itself here. Returns
(normalized step, fixes, warnings) for this step. -/
def validateStep (c : Client) (pf : String → Option ℚ) (step : PlanStep) :
    PlanStep × List ValidationFix × List String :=
  if availableToolNames.contains step.tool_name then
    let p := validateAndFixParameters c pf step
    let q := validatePhysicalMeaning p.1
    ({ q.1 with status := "validated" }, p.2 ++ q.2, [])
  else
    let reason0 := "Tool \x27" ++ step.tool_name ++ "\x27 not found in available tools"
    match suggestAlternativeTool step.tool_name with
    | some sug =>
        let fix : ValidationFix :=
          { step_id := step.step_id, fix_type := "tool_not_found",
            original_value := PyVal.str step.tool_name,
            fixed_value := PyVal.str sug,
            reason := reason0 ++ " -> Suggested alternative: " ++ sug }
        let p := validateAndFixParameters c pf { step with tool_name := sug }
        let q := validatePhysicalMeaning p.1
        ({ q.1 with status := "validated" }, fix :: (p.2 ++ q.2),
         ["Step " ++ step.step_id ++ ": Tool \x27" ++ step.tool_name ++
          "\x27 not found, using \x27" ++ sug ++ "\x27 instead"])
    | none =>
        let fix : ValidationFix :=
          { step_id := step.step_id, fix_type := "tool_not_found",
            original_value := PyVal.str step.tool_name,
            fixed_value := PyVal.null, reason := reason0 }
        ({ step with status := "skipped" }, [fix],
         ["Step " ++ step.step_id ++ ": Tool \x27" ++ step.tool_name ++
          "\x27 not found, skipping step"])

/-- The validation loop over all steps, accumulating normalized steps,
fixes and warnings in order. -/
def validateSteps (c : Client) (pf : String → Option ℚ) :
    List PlanStep → List PlanStep × List ValidationFix × List String
  | [] => ([], [], [])
  | s :: rest =>
      let r := validateStep c pf s
      let t := validateSteps c pf rest
      (r.1 :: t.1, r.2.1 ++ t.2.1, r.2.2 ++ t.2.2)

/-- Embeds `ToolsNode.validate_and_fix`. -/
def validateAndFix (c : Client) (pf : String → Option ℚ) (plan : Plan) :
    ValidatedPlan :=
  let r := validateSteps c pf plan.steps
  { plan_id := plan.plan_id,
    normalized_steps := r.1,
    fixes := r.2.1,
    validation_warnings := r.2.2,
    is_valid := (r.2.1.filter (fun f => f.fix_type == "tool_not_found")).length == 0 }

/-- Python `set.add`: sets of step ids are modelled as duplicate-free-enough
lists, only membership is ever consulted. -/
def addSet (l : List String) (x : String) : List String :=
  if l.contains x then l else l ++ [x]

/-- The tool bindings as seen by `ToolsNode.execute`: `invoke name args`
is the outcome of `tool.invoke(step.args)` for the catalog tool `name`
(`Except.error e` = the call raised with message `e`). -/
structure ExecEnv where
  invoke : String → PyDict → Except String PyVal

/-- The executor's loop state: the growing `execution_results` and `errors`
lists, the three id sets, and a ghost log `calls` of the tool invocations
actually performed (used to state that blocked steps invoke no tool). -/
structure ExecState where
  results : List ExecutionResult := []
  errors : List ErrEntry := []
  completed : List String := []
  failed : List String := []
  skipped : List String := []
  calls : List (String × PyDict) := []
deriving DecidableEq, Inhabited

/-- One iteration of the loop of `ToolsNode.execute` (`allIds` is the
precomputed `all_step_ids`). -/
def execStep (env : ExecEnv) (allIds : List String) (st : ExecState)
    (step : PlanStep) : ExecState :=
  if step.status == "skipped" then
    { st with skipped := addSet st.skipped step.step_id }
  else
    let missing := step.dependencies.filter (fun d => !(allIds.contains d))
    let blocked := step.dependencies.filter
      (fun d => st.failed.contains d || st.skipped.contains d)
    let pending := step.dependencies.filter
      (fun d => allIds.contains d && !(st.completed.contains d) &&
        !(st.failed.contains d) && !(st.skipped.contains d))
    if !step.dependencies.isEmpty &&
        (!missing.isEmpty || !blocked.isEmpty || !pending.isEmpty) then
      let reasons :=
        (if !missing.isEmpty then
          ["missing dependencies: " ++ pyJoin ", " missing] else []) ++
        (if !blocked.isEmpty then
          ["failed/skipped dependencies: " ++ pyJoin ", " blocked] else []) ++
        (if !pending.isEmpty then
          ["unmet dependencies (not completed): " ++ pyJoin ", " pending] else [])
      let msg := "Unmet dependencies: " ++ pyJoin "; " reasons
      { st with
        results := st.results ++
          [{ step_id := step.step_id, success := false, error := some msg }],
        errors := st.errors ++ [{ step_id := step.step_id, error := msg }],
        skipped := addSet st.skipped step.step_id }
    else
      if availableToolNames.contains step.tool_name then
        match env.invoke step.tool_name step.args with
        | Except.ok out =>
            { st with
              results := st.results ++
                [{ step_id := step.step_id, success := true, output := out }],
              completed := addSet st.completed step.step_id,
              calls := st.calls ++ [(step.tool_name, step.args)] }
        | Except.error e =>
            { st with
              results := st.results ++
                [{ step_id := step.step_id, success := false, error := some e }],
              errors := st.errors ++ [{ step_id := step.step_id, error := e }],
              failed := addSet st.failed step.step_id,
              calls := st.calls ++ [(step.tool_name, step.args)] }
      else
        let msg := "Tool \x27" ++ step.tool_name ++ "\x27 not found"
        { st with
          results := st.results ++
            [{ step_id := step.step_id, success := false, error := some msg }],
          errors := st.errors ++ [{ step_id := step.step_id, error := msg }],
          failed := addSet st.failed step.step_id }

/-- The set `all_step_ids` (membership is all that is consulted). -/
def allStepIds (vp : ValidatedPlan) : List String :=
  vp.normalized_steps.map (fun s => s.step_id)

/-- The loop state after processing the first `i` steps of the plan. -/
def stateAfter (env : ExecEnv) (vp : ValidatedPlan) (i : Nat) : ExecState :=
  (vp.normalized_steps.take i).foldl (execStep env (allStepIds vp)) {}

/-- The final-status computation at the end of `ToolsNode.execute`. -/
def finalStatus (rs : List ExecutionResult) : String :=
  if rs.any (fun r => !r.success) then
    if rs.any (fun r => r.success) then "partial" else "failed"
  else "completed"

/-- Embeds `ToolsNode._generate_summary`. -/
def generateSummary (rs : List ExecutionResult) : String :=
  let successful := (rs.filter (fun r => r.success)).length
  let total := rs.length
  if successful == total then
    "Successfully executed all " ++ toString total ++ " steps."
  else if successful == 0 then
    "Failed to execute any of the " ++ toString total ++ " steps."
  else
    "Completed " ++ toString successful ++ "/" ++ toString total ++
      " steps successfully."

/-- Embeds `ToolsNode.execute`. -/
def executePlan (env : ExecEnv) (vp : ValidatedPlan) : ExecutionReport :=
  let st := vp.normalized_steps.foldl (execStep env (allStepIds vp)) {}
  { plan_id := vp.plan_id,
    execution_results := st.results,
    errors := st.errors,
    final_status := finalStatus st.results,
    summary := generateSummary st.results }

/-- The `success` predicate of `MultiAgentCoordinator._aggregate_results`:
`final_status in ['completed', 'partial'] and len(errors) == 0`. -/
def aggregateSuccess (rep : ExecutionReport) : Bool :=
  ["completed", "partial"].contains rep.final_status && rep.errors.length == 0

/-- Predicate that `msg` mentions `d`: `d` occurs verbatim inside `msg`. -/
def mentions (msg d : String) : Prop :=
  ∃ pre post : List Char, msg.data = pre ++ d.data ++ post

/-- The result record returned by `MultiAgentCoordinator.execute`
(the raw sub-object payloads, kept as optional values). -/
structure PipelineResult where
  success : Bool
  output : String
  plan : Option Plan := none
  validation : Option ValidatedPlan := none
  execution : Option ExecutionReport := none
deriving DecidableEq, Inhabited

/-- The four pipeline phases the coordinator composes, each modelled as a
fallible component (`Except.error e` = the phase raised with message `e`);
this captures the coordinator-boundary catch-all over planning, validation,
execution and aggregation. -/
structure CoordEnv where
  plan : String → Except String Plan
  validate : Plan → Except String ValidatedPlan
  exec : ValidatedPlan → Except String ExecutionReport
  aggregate : Plan → ValidatedPlan → ExecutionReport → Except String PipelineResult

/-- Python `repr` of a list of strings, as produced by the f-string
`f"... {validated_plan.validation_warnings}"`. -/
def pyReprStrList (l : List String) : String :=
  "[" ++ pyJoin ", " (l.map (fun s => "\x27" ++ s ++ "\x27")) ++ "]"

/-- The empty-plan early return of `MultiAgentCoordinator.execute`. -/
def noPlanResult (p : Plan) : PipelineResult :=
  { success := false,
    output := "No plan generated. Rationale: " ++ p.rationale,
    plan := some p }

/-- The invalid-plan early return of `MultiAgentCoordinator.execute`. -/
def invalidResult (p : Plan) (v : ValidatedPlan) : PipelineResult :=
  { success := false,
    output := "Plan validation failed. Warnings: " ++
      pyReprStrList v.validation_warnings,
    plan := some p, validation := some v }

/-- The `except` branch of `MultiAgentCoordinator.execute`. -/
def errorResult (e : String) : PipelineResult :=
  { success := false, output := "Error in multi-agent execution: " ++ e }

/-- The `try` block of `MultiAgentCoordinator.execute`: the four phases with
the two early returns; an `Except.error` is a raised exception that escapes
the block. -/
def coordinatorBody (env : CoordEnv) (user_input : String) :
    Except String PipelineResult :=
  match env.plan user_input with
  | Except.error e => Except.error e
  | Except.ok p =>
      if p.steps.isEmpty then Except.ok (noPlanResult p)
      else
        match env.validate p with
        | Except.error e => Except.error e
        | Except.ok v =>
            if v.is_valid = false then Except.ok (invalidResult p v)
            else
              match env.exec v with
              | Except.error e => Except.error e
              | Except.ok r => env.aggregate p v r

/-- Embeds `MultiAgentCoordinator.execute`: the `try` block wrapped in the
catch-all that converts any raised exception into a failure record. -/
def coordinatorExecute (env : CoordEnv) (user_input : String) : PipelineResult :=
  match coordinatorBody env user_input with
  | Except.ok r => r
  | Except.error e => errorResult e

/-!
Heap model of `validate_and_fix` for the no-mutation property. The heap
(`Store`) holds the `PlanStep` objects; a plan step is a reference (index)
into it. `PlanStep.from_dict(step.to_dict())` allocates a fresh object with
the same field values (`dataclasses.asdict` rebuilds the `args` dict
recursively, so the copy shares no mutable part with the original); every
write performed by validation — tool-name rewrite, the in-place `args`
fixes of the two parameter checkers, and the status update — targets the
freshly allocated copy, exactly as in the source.
-/

abbrev Store := List PlanStep

def storeGet (σ : Store) (r : Nat) : PlanStep := σ.getD r default

def storeSet (σ : Store) (r : Nat) (s : PlanStep) : Store := σ.set r s

/-- One iteration of the validation loop of `ToolsNode.validate_and_fix`,
with the copy-then-mutate discipline explicit: returns the new heap and the
reference to the normalized working copy. -/
def validateStepStore (c : Client) (pf : String → Option ℚ) (σ : Store)
    (r : Nat) : Store × Nat :=
  let step := storeGet σ r
  let σ₁ := σ ++ [step]
  let r₁ := σ.length
  if availableToolNames.contains step.tool_name then
    let p := validateAndFixParameters c pf (storeGet σ₁ r₁)
    let σ₂ := storeSet σ₁ r₁ p.1
    let q := validatePhysicalMeaning (storeGet σ₂ r₁)
    let σ₃ := storeSet σ₂ r₁ q.1
    (storeSet σ₃ r₁ { storeGet σ₃ r₁ with status := "validated" }, r₁)
  else
    match suggestAlternativeTool step.tool_name with
    | some sug =>
        let σ₂ := storeSet σ₁ r₁ { storeGet σ₁ r₁ with tool_name := sug }
        let p := validateAndFixParameters c pf (storeGet σ₂ r₁)
        let σ₃ := storeSet σ₂ r₁ p.1
        let q := validatePhysicalMeaning (storeGet σ₃ r₁)
        let σ₄ := storeSet σ₃ r₁ q.1
        (storeSet σ₄ r₁ { storeGet σ₄ r₁ with status := "validated" }, r₁)
    | none =>
        (storeSet σ₁ r₁ { storeGet σ₁ r₁ with status := "skipped" }, r₁)

/-- The validation loop of `ToolsNode.validate_and_fix` over the references
of the plan's steps, in the heap model. -/
def validateAndFixStore (c : Client) (pf : String → Option ℚ) :
    Store → List Nat → Store × List Nat
  | σ, [] => (σ, [])
  | σ, r :: rs =>
      let a := validateStepStore c pf σ r
      let b := validateAndFixStore c pf a.1 rs
      (b.1, a.2 :: b.2)

/-! ### Helper lemmas -/

theorem str_data_append (a b : String) : (a ++ b).data = a.data ++ b.data := by
  cases a; cases b; rfl

theorem mentions_refl (d : String) : mentions d d :=
  ⟨[], [], by simp⟩

theorem mentions_append_right (a b d : String) (h : mentions a d) :
    mentions (a ++ b) d := by
  obtain ⟨pre, post, hp⟩ := h
  exact ⟨pre, post ++ b.data, by rw [str_data_append, hp]; simp⟩

theorem mentions_append_left (a b d : String) (h : mentions b d) :
    mentions (a ++ b) d := by
  obtain ⟨pre, post, hp⟩ := h
  exact ⟨a.data ++ pre, post, by rw [str_data_append, hp]; simp⟩

theorem mentions_pyJoin (sep : String) (l : List String) (s d : String)
    (hs : s ∈ l) (hd : mentions s d) : mentions (pyJoin sep l) d := by
  induction l with
  | nil => cases hs
  | cons x t ih =>
      cases hs with
      | head =>
          cases t with
          | nil => exact hd
          | cons y u =>
              exact mentions_append_right _ _ _ (mentions_append_right _ _ _ hd)
      | tail _ hmem =>
          cases t with
          | nil => cases hmem
          | cons y u =>
              exact mentions_append_left _ _ _ (ih hmem)

theorem dictGet_cons (p : String × PyVal) (t : PyDict) (k : String) :
    dictGet (p :: t) k = if p.1 = k then some p.2 else dictGet t k := by
  by_cases h : p.1 = k <;> simp [dictGet, List.find?_cons, h]

theorem dictGet_append (l₁ l₂ : PyDict) (k : String) :
    dictGet (l₁ ++ l₂) k =
      ((dictGet l₁ k).orElse (fun _ => dictGet l₂ k)) := by
  induction l₁ with
  | nil => simp [dictGet]
  | cons p t ih =>
      by_cases h : p.1 = k <;>
        simp [dictGet_cons, h, ih, Option.orElse]

theorem dictGet_map_update_self (l : PyDict) (k : String) (v : PyVal)
    (hl : l.any (fun q => q.1 == k) = true) :
    dictGet (l.map (fun p => if p.1 = k then (k, v) else p)) k = some v := by
  induction l with
  | nil => simp at hl
  | cons p t ih =>
      by_cases h : p.1 = k
      · simp [dictGet_cons, h]
      · have ht : t.any (fun q => q.1 == k) = true := by
          simpa [List.any_cons, h] using hl
        simpa [dictGet_cons, h] using ih ht

theorem dictGet_map_update_ne (l : PyDict) (k k' : String) (v : PyVal)
    (h : k' ≠ k) :
    dictGet (l.map (fun p => if p.1 = k then (k, v) else p)) k' =
      dictGet l k' := by
  induction l with
  | nil => simp [dictGet]
  | cons p t ih =>
      by_cases hp : p.1 = k
      · have : k ≠ k' := fun hh => h hh.symm
        simpa [dictGet_cons, hp, this] using ih
      · by_cases hp' : p.1 = k'
        · simp [dictGet_cons, hp, hp', h]
        · simpa [dictGet_cons, hp, hp'] using ih

theorem dictGet_dictSet_self (d : PyDict) (k : String) (v : PyVal) :
    dictGet (dictSet d k v) k = some v := by
  unfold dictSet
  by_cases hd : d.any (fun q => q.1 == k) = true
  · simpa [hd] using dictGet_map_update_self d k v hd
  · have hnone : dictGet d k = none := by
      cases hfind : d.find? (fun p => p.1 == k) with
      | none => simp [dictGet, hfind]
      | some q =>
          exact absurd (List.any_eq_true.2
            ⟨q, List.mem_of_find?_eq_some hfind,
              List.find?_some hfind⟩) hd
    simp only [hd, if_false, Bool.false_eq_true]
    rw [dictGet_append, hnone]
    simp [dictGet_cons, Option.orElse]

theorem dictGet_dictSet_ne (d : PyDict) (k k' : String) (v : PyVal)
    (h : k' ≠ k) : dictGet (dictSet d k v) k' = dictGet d k' := by
  unfold dictSet
  by_cases hd : d.any (fun q => q.1 == k) = true
  · simpa [hd] using dictGet_map_update_ne d k k' v h
  · have : k ≠ k' := fun hh => h hh.symm
    simp only [hd, if_false, Bool.false_eq_true]
    rw [dictGet_append]
    cases hget : dictGet d k' <;>
      simp [dictGet_cons, dictGet, this, Option.orElse, hget]

theorem fixDroneId_get_ne (c : Client) (sid : String) (args : PyDict)
    (k : String) (h : k ≠ "drone_id") :
    dictGet (fixDroneId c sid args).1 k = dictGet args k := by
  unfold fixDroneId
  split <;> try rfl
  split <;> try rfl
  split <;> first | rfl | exact dictGet_dictSet_ne _ _ _ _ h

theorem fixAltitude_get_ne (sid : String) (args : PyDict) (k : String)
    (h : k ≠ "altitude") :
    dictGet (fixAltitude sid args).1 k = dictGet args k := by
  unfold fixAltitude
  split <;> try rfl
  split
  · exact dictGet_dictSet_ne _ _ _ _ h
  · split
    · exact dictGet_dictSet_ne _ _ _ _ h
    · rfl

theorem fixCoordParam_get_ne (pf : String → Option ℚ) (sid key : String)
    (args : PyDict) (k : String) (h : k ≠ key) :
    dictGet (fixCoordParam pf sid key args).1 k = dictGet args k := by
  unfold fixCoordParam
  split <;> try rfl
  split <;> exact dictGet_dictSet_ne _ _ _ _ h

theorem fixMoveCoord_get_ne (sid key : String) (args : PyDict) (k : String)
    (h : k ≠ key) :
    dictGet (fixMoveCoord sid key args).1 k = dictGet args k := by
  unfold fixMoveCoord
  split <;> try rfl
  split <;> first | rfl | exact dictGet_dictSet_ne _ _ _ _ h

theorem fixSpeed_get_ne (sid : String) (args : PyDict) (k : String)
    (h : k ≠ "speed") :
    dictGet (fixSpeed sid args).1 k = dictGet args k := by
  unfold fixSpeed
  split <;> try rfl
  split
  · exact dictGet_dictSet_ne _ _ _ _ h
  · split
    · exact dictGet_dictSet_ne _ _ _ _ h
    · rfl

theorem fixDroneId_fixtype (c : Client) (sid : String) (args : PyDict) :
    ∀ f ∈ (fixDroneId c sid args).2, f.fix_type = "resolved_reference" := by
  unfold fixDroneId
  split <;> try simp
  split <;> try simp
  split <;> simp

theorem fixAltitude_fixtype (sid : String) (args : PyDict) :
    ∀ f ∈ (fixAltitude sid args).2, f.fix_type = "invalid_range" := by
  unfold fixAltitude
  split <;> try simp
  split <;> try simp
  split <;> simp

theorem fixCoordParam_fixtype (pf : String → Option ℚ) (sid key : String)
    (args : PyDict) :
    ∀ f ∈ (fixCoordParam pf sid key args).2, f.fix_type = "invalid_type" := by
  unfold fixCoordParam
  split <;> try simp
  split <;> simp

theorem fixMoveCoord_fixtype (sid key : String) (args : PyDict) :
    ∀ f ∈ (fixMoveCoord sid key args).2,
      f.fix_type = "physically_unreasonable" := by
  unfold fixMoveCoord
  split <;> try simp
  split <;> simp

theorem fixSpeed_fixtype (sid : String) (args : PyDict) :
    ∀ f ∈ (fixSpeed sid args).2, f.fix_type = "physically_unreasonable" := by
  unfold fixSpeed
  split <;> try simp
  split <;> try simp
  split <;> simp

theorem vafParams_fixtype (c : Client) (pf : String → Option ℚ)
    (s : PlanStep) :
    ∀ f ∈ (validateAndFixParameters c pf s).2,
      f.fix_type = "resolved_reference" ∨ f.fix_type = "invalid_range" ∨
      f.fix_type = "invalid_type" := by
  unfold validateAndFixParameters
  split
  · intro f hf
    simp only [List.mem_append] at hf
    rcases hf with ((((h | h) | h) | h) | h)
    · exact Or.inl (fixDroneId_fixtype _ _ _ f h)
    · exact Or.inr (Or.inl (fixAltitude_fixtype _ _ f h))
    · exact Or.inr (Or.inr (fixCoordParam_fixtype _ _ _ _ f h))
    · exact Or.inr (Or.inr (fixCoordParam_fixtype _ _ _ _ f h))
    · exact Or.inr (Or.inr (fixCoordParam_fixtype _ _ _ _ f h))
  · simp

theorem vPhysical_fixtype (s : PlanStep) :
    ∀ f ∈ (validatePhysicalMeaning s).2,
      f.fix_type = "physically_unreasonable" := by
  unfold validatePhysicalMeaning
  intro f hf
  simp only [List.mem_append] at hf
  rcases hf with h | h
  · revert h
    split
    · intro h
      simp only [List.mem_append] at h
      rcases h with (h | h) | h
      · exact fixMoveCoord_fixtype _ _ _ f h
      · exact fixMoveCoord_fixtype _ _ _ f h
      · exact fixMoveCoord_fixtype _ _ _ f h
    · intro h; cases h
  · exact fixSpeed_fixtype _ _ f h

theorem vafParams_step (c : Client) (pf : String → Option ℚ) (s : PlanStep) :
    (validateAndFixParameters c pf s).1 =
      { s with args := (validateAndFixParameters c pf s).1.args } := by
  unfold validateAndFixParameters
  split <;> rfl

theorem vPhysical_step (s : PlanStep) :
    (validatePhysicalMeaning s).1 =
      { s with args := (validatePhysicalMeaning s).1.args } := rfl

/-! ### Shared concrete fixtures -/

/-- A string-to-float coercion under which every coercion fails; the
verified properties hold for every coercion, this one instantiates them. -/
def pfNone : String → Option ℚ := fun _ => none

/-- A fleet client whose `list_drones()` raises. -/
def clientNone : Client := ⟨none⟩

/-- A tool environment in which every invocation raises. -/
def envDown : ExecEnv := ⟨fun _ _ => Except.error "api down"⟩

theorem suggest_takeoff_eq_none : suggestAlternativeTool "takeoff" = none := by
  decide

theorem suggest_empty_eq_list_drones :
    suggestAlternativeTool "" = some "list_drones" := by
  decide

/-! ### Claim C2 -/

def stepTakeoff : PlanStep := { step_id := "s1", tool_name := "takeoff" }

def planTakeoff : Plan := { steps := [stepTakeoff] }

/-- C2 (counterexample): a step with `tool_name="takeoff"` is NOT resolved
to `take_off`: the bidirectional substring pass matches no catalog name
(neither of "takeoff"/"take_off" contains the other) and the 5-character
prefix pass fails ("takeo" is a prefix of no catalog name, which continue
with "take_"), so the step keeps its tool name and is marked skipped, not
validated — contradicting the claim. -/
theorem takeoff_resolves_counterexample :
    suggestAlternativeTool "takeoff" = none ∧
    ((validateAndFix clientNone pfNone planTakeoff).normalized_steps.map
      (fun s => (s.tool_name, s.status))) = [("takeoff", "skipped")] := by
  exact ⟨by decide, by decide⟩

/-- C2 (amended): a step with `tool_name="takeoff"` (no underscore) finds
no alternative in either the substring or the 5-character-prefix pass of
`_suggest_alternative_tool`; `validate_and_fix` therefore leaves the tool
name unchanged and marks the step skipped (and the plan invalid), rather
than rewriting it to `take_off` and validating it. -/
theorem takeoff_step_skipped (c : Client) (pf : String → Option ℚ)
    (step : PlanStep) (p : Plan) (hstep : step.tool_name = "takeoff")
    (hp : p.steps = [step]) :
    (validateAndFix c pf p).normalized_steps =
      [{ step with status := "skipped" }] ∧
    (validateAndFix c pf p).is_valid = false := by
  constructor <;>
    simp +decide [validateAndFix, validateSteps, validateStep, hp, hstep,
      suggest_takeoff_eq_none]

/-- C2 witness: the amended theorem applied to the concrete
takeoff plan. -/
theorem takeoff_step_skipped_witness :
    stepTakeoff.tool_name = "takeoff" ∧ planTakeoff.steps = [stepTakeoff] ∧
    ((validateAndFix clientNone pfNone planTakeoff).normalized_steps =
      [{ stepTakeoff with status := "skipped" }] ∧
     (validateAndFix clientNone pfNone planTakeoff).is_valid = false) :=
  ⟨rfl, rfl, takeoff_step_skipped clientNone pfNone stepTakeoff planTakeoff rfl rfl⟩

/-! ### Claim C1 -/

theorem cnt_zero_of_fixtype (l : List ValidationFix)
    (h : ∀ f ∈ l, f.fix_type ≠ "tool_not_found") :
    (l.filter (fun f => f.fix_type == "tool_not_found")).length = 0 := by
  rw [List.length_eq_zero, List.filter_eq_nil_iff]
  intro f hf
  simpa using h f hf

theorem paramsPhysical_no_toolfix (c : Client) (pf : String → Option ℚ)
    (s : PlanStep) :
    ∀ f ∈ (validateAndFixParameters c pf s).2 ++
        (validatePhysicalMeaning (validateAndFixParameters c pf s).1).2,
      f.fix_type ≠ "tool_not_found" := by
  intro f hf
  rcases List.mem_append.1 hf with hm | hm
  · rcases vafParams_fixtype c pf s f hm with h' | h' | h' <;> simp [h']
  · simp [vPhysical_fixtype _ f hm]

theorem cnt_validateStep (c : Client) (pf : String → Option ℚ)
    (s : PlanStep) :
    ((validateStep c pf s).2.1.filter
        (fun f => f.fix_type == "tool_not_found")).length =
      if availableToolNames.contains s.tool_name then 0 else 1 := by
  unfold validateStep
  split
  · exact cnt_zero_of_fixtype _ (paramsPhysical_no_toolfix c pf s)
  · split
    · show ((List.filter _ (_ :: _)).length = _)
      rw [List.filter_cons]
      simp only [beq_self_eq_true, if_true, List.length_cons]
      rw [cnt_zero_of_fixtype _ (paramsPhysical_no_toolfix c pf _)]
    · simp

theorem cnt_validateSteps (c : Client) (pf : String → Option ℚ)
    (l : List PlanStep) :
    ((validateSteps c pf l).2.1.filter
        (fun f => f.fix_type == "tool_not_found")).length = 0 ↔
      ∀ s ∈ l, s.tool_name ∈ availableToolNames := by
  induction l with
  | nil => simp [validateSteps]
  | cons s t ih =>
      simp only [validateSteps, List.filter_append, List.length_append,
        Nat.add_eq_zero, List.mem_cons]
      rw [cnt_validateStep]
      constructor
      · rintro ⟨h1, h2⟩
        intro x hx
        rcases hx with rfl | hx
        · by_contra hmem
          rw [if_neg (by simpa using hmem)] at h1
          exact one_ne_zero h1
        · exact (ih.1 h2) x hx
      · intro h
        refine ⟨?_, ih.2 (fun x hx => h x (Or.inr hx))⟩
        rw [if_pos (by simpa using h s (Or.inl rfl))]

def stepTake : PlanStep := { step_id := "s1", tool_name := "take" }

def planTake : Plan := { steps := [stepTake] }

/-- C1 (counterexample): for the plan with the single step
`tool_name="take"`, the tool-not-found fix IS resolved via the suggestion
`take_off` (the step ends validated with the suggested tool, and the sole
fix carries `fixed_value="take_off"`), yet `is_valid` is false — so a
resolved-via-suggestion tool-not-found does count against validity,
contradicting the claimed equivalence. -/
theorem is_valid_counterexample :
    ((validateAndFix clientNone pfNone planTake).normalized_steps.map
      (fun s => (s.tool_name, s.status))) = [("take_off", "validated")] ∧
    ((validateAndFix clientNone pfNone planTake).fixes.map
      (fun f => (f.fix_type, f.fixed_value))) =
      [("tool_not_found", PyVal.str "take_off")] ∧
    (validateAndFix clientNone pfNone planTake).is_valid = false := by
  exact ⟨by decide, by decide, by decide⟩

/-- C1 (amended): `is_valid` on the ValidatedPlan returned by
`validate_and_fix` is true iff NO `tool_not_found` fix was recorded at all
— equivalently, iff every step's original `tool_name` is in the catalog; a
tool-not-found that was resolved via an alternative-tool suggestion still
counts against validity. -/
theorem is_valid_iff_all_tools_found (c : Client) (pf : String → Option ℚ)
    (p : Plan) :
    (validateAndFix c pf p).is_valid = true ↔
      ∀ s ∈ p.steps, s.tool_name ∈ availableToolNames := by
  simp only [validateAndFix, beq_iff_eq]
  exact cnt_validateSteps c pf p.steps

/-- C1 witness: the amended equivalence applied to a concrete valid plan. -/
theorem is_valid_iff_all_tools_found_witness :
    (validateAndFix clientNone pfNone
        { steps := [{ step_id := "s1", tool_name := "land" }] }).is_valid
      = true :=
  (is_valid_iff_all_tools_found clientNone pfNone
    { steps := [{ step_id := "s1", tool_name := "land" }] }).2
    (by decide)

/-! ### Claim C6 -/

/-- Number of recorded fixes of a given `fix_type`. -/
def cntType (ty : String) (l : List ValidationFix) : Nat :=
  (l.filter (fun f => f.fix_type == ty)).length

theorem cntType_zero (ty : String) (l : List ValidationFix)
    (h : ∀ f ∈ l, f.fix_type ≠ ty) : cntType ty l = 0 := by
  rw [cntType, List.length_eq_zero, List.filter_eq_nil_iff]
  intro f hf
  simpa using h f hf

theorem cntType_append (ty : String) (l₁ l₂ : List ValidationFix) :
    cntType ty (l₁ ++ l₂) = cntType ty l₁ + cntType ty l₂ := by
  simp [cntType, List.filter_append]

theorem fixAltitude_spec (sid : String) (args : PyDict) (a : ℚ)
    (h : dictGet args "altitude" = some (PyVal.num a)) :
    dictGet (fixAltitude sid args).1 "altitude" =
      some (PyVal.num (if a < 0 then 5 else if a > 500 then 120 else a)) ∧
    cntType "invalid_range" (fixAltitude sid args).2 =
      (if a < 0 then 1 else if a > 500 then 1 else 0) := by
  unfold fixAltitude
  rw [h]
  by_cases h1 : a < 0
  · simp [h1, dictGet_dictSet_self, cntType]
  · by_cases h2 : a > 500
    · simp [h1, h2, dictGet_dictSet_self, cntType]
    · simp [h1, h2, cntType, h]

theorem cntIR_fixDroneId (c : Client) (sid : String) (args : PyDict) :
    cntType "invalid_range" (fixDroneId c sid args).2 = 0 :=
  cntType_zero _ _ (fun f hf => by simp [fixDroneId_fixtype _ _ _ f hf])

theorem cntIR_fixCoordParam (pf : String → Option ℚ) (sid key : String)
    (args : PyDict) :
    cntType "invalid_range" (fixCoordParam pf sid key args).2 = 0 :=
  cntType_zero _ _ (fun f hf => by simp [fixCoordParam_fixtype _ _ _ _ f hf])

theorem vafParams_alt (c : Client) (pf : String → Option ℚ)
    (step : PlanStep) (a : ℚ)
    (htool : availableToolNames.contains step.tool_name = true)
    (halt : dictGet step.args "altitude" = some (PyVal.num a)) :
    dictGet (validateAndFixParameters c pf step).1.args "altitude" =
      some (PyVal.num (if a < 0 then 5 else if a > 500 then 120 else a)) ∧
    cntType "invalid_range" (validateAndFixParameters c pf step).2 =
      (if a < 0 then 1 else if a > 500 then 1 else 0) := by
  unfold validateAndFixParameters
  simp only [htool, if_true]
  have hA1 : dictGet (fixDroneId c step.step_id step.args).1 "altitude" =
      some (PyVal.num a) := by
    rw [fixDroneId_get_ne _ _ _ _ (by decide)]; exact halt
  obtain ⟨hv, hc⟩ := fixAltitude_spec step.step_id _ a hA1
  constructor
  · rw [fixCoordParam_get_ne _ _ _ _ _ (by decide),
      fixCoordParam_get_ne _ _ _ _ _ (by decide),
      fixCoordParam_get_ne _ _ _ _ _ (by decide)]
    exact hv
  · rw [cntType_append, cntType_append, cntType_append, cntType_append,
      cntIR_fixDroneId, cntIR_fixCoordParam, cntIR_fixCoordParam,
      cntIR_fixCoordParam, hc]
    omega

theorem vPhysical_alt (s : PlanStep) :
    dictGet (validatePhysicalMeaning s).1.args "altitude" =
      dictGet s.args "altitude" := by
  unfold validatePhysicalMeaning
  simp only
  rw [fixSpeed_get_ne _ _ _ (by decide)]
  split
  · rw [fixMoveCoord_get_ne _ _ _ _ (by decide),
      fixMoveCoord_get_ne _ _ _ _ (by decide),
      fixMoveCoord_get_ne _ _ _ _ (by decide)]
  · rfl

theorem vPhysical_cntIR (s : PlanStep) :
    cntType "invalid_range" (validatePhysicalMeaning s).2 = 0 :=
  cntType_zero _ _ (fun f hf => by simp [vPhysical_fixtype _ f hf])

/-- C6: for every step being validated whose args contain a numeric
`altitude`: a negative value is replaced by `5.0` with exactly one
`invalid_range` fix; a value above `500` is replaced by `120.0` with
exactly one `invalid_range` fix; a value in `[0, 500]` is left unchanged
with no `invalid_range` fix. -/
theorem altitude_clamping (c : Client) (pf : String → Option ℚ)
    (step : PlanStep) (a : ℚ)
    (htool : availableToolNames.contains step.tool_name = true)
    (halt : dictGet step.args "altitude" = some (PyVal.num a)) :
    (a < 0 →
      dictGet (validateStep c pf step).1.args "altitude" =
          some (PyVal.num 5) ∧
        cntType "invalid_range" (validateStep c pf step).2.1 = 1) ∧
    (a > 500 →
      dictGet (validateStep c pf step).1.args "altitude" =
          some (PyVal.num 120) ∧
        cntType "invalid_range" (validateStep c pf step).2.1 = 1) ∧
    (0 ≤ a → a ≤ 500 →
      dictGet (validateStep c pf step).1.args "altitude" =
          some (PyVal.num a) ∧
        cntType "invalid_range" (validateStep c pf step).2.1 = 0) := by
  obtain ⟨hv, hc⟩ := vafParams_alt c pf step a htool halt
  have hstep :
      dictGet (validateStep c pf step).1.args "altitude" =
        some (PyVal.num (if a < 0 then 5 else if a > 500 then 120 else a)) ∧
      cntType "invalid_range" (validateStep c pf step).2.1 =
        (if a < 0 then 1 else if a > 500 then 1 else 0) := by
    unfold validateStep
    simp only [htool, if_true]
    constructor
    · rw [vPhysical_alt]; exact hv
    · rw [cntType_append, vPhysical_cntIR, hc]
      omega
  obtain ⟨hval, hcnt⟩ := hstep
  refine ⟨?_, ?_, ?_⟩
  · intro h1
    rw [if_pos h1] at hval hcnt
    exact ⟨hval, hcnt⟩
  · intro h2
    have h1 : ¬a < 0 := by linarith
    rw [if_neg h1, if_pos h2] at hval hcnt
    exact ⟨hval, hcnt⟩
  · intro hge hle
    have h1 : ¬a < 0 := by linarith
    have h2 : ¬a > 500 := by linarith
    rw [if_neg h1, if_neg h2] at hval hcnt
    exact ⟨hval, hcnt⟩

def stepAltNeg : PlanStep :=
  { step_id := "s1", tool_name := "take_off",
    args := [("altitude", PyVal.num (-5))] }

/-- C6 witness: the negative-altitude branch applied to a concrete step
with `altitude=-5`. -/
theorem altitude_clamping_witness :
    availableToolNames.contains stepAltNeg.tool_name = true ∧
    dictGet stepAltNeg.args "altitude" = some (PyVal.num (-5)) ∧
    ((-5 : ℚ) < 0) ∧
    (dictGet (validateStep clientNone pfNone stepAltNeg).1.args "altitude" =
        some (PyVal.num 5) ∧
      cntType "invalid_range" (validateStep clientNone pfNone stepAltNeg).2.1 = 1) :=
  ⟨by decide, by decide, by decide,
   (altitude_clamping clientNone pfNone stepAltNeg (-5) (by decide)
      (by decide)).1 (by decide)⟩

/-! ### Claim C10 -/

def stepEmptyTool : PlanStep := { step_id := "s1", tool_name := "" }

def planEmptyTool : Plan := { steps := [stepEmptyTool] }

/-- C10: the empty tool name is not a catalog name, but the bidirectional
substring pass matches every catalog name (the empty string is a substring
of anything), so `validate_and_fix` rewrites the step's tool name to the
first tool in registration order, `list_drones`, and marks the step
validated rather than skipped. -/
theorem empty_tool_name_resolves (c : Client) (pf : String → Option ℚ)
    (step : PlanStep) (p : Plan) (hstep : step.tool_name = "")
    (hp : p.steps = [step]) :
    ("" ∈ availableToolNames) = False ∧
    ((validateAndFix c pf p).normalized_steps.map
      (fun s => (s.tool_name, s.status))) = [("list_drones", "validated")] := by
  have h1 : availableToolNames.contains step.tool_name = false := by
    rw [hstep]; decide
  have h2 : suggestAlternativeTool step.tool_name = some "list_drones" := by
    rw [hstep]; exact suggest_empty_eq_list_drones
  refine ⟨by simp; decide, ?_⟩
  simp only [validateAndFix, validateSteps, validateStep, hp, h1, h2,
    Bool.false_eq_true, if_false, List.map_cons, List.map_nil]
  have hn := vafParams_step c pf { step with tool_name := "list_drones" }
  have hq := vPhysical_step
    (validateAndFixParameters c pf { step with tool_name := "list_drones" }).1
  rw [hq, hn]

/-! ### Claim C4 -/

theorem finalStatus_spec (rs : List ExecutionResult) :
    finalStatus rs =
      (if rs.all (fun r => r.success) then "completed"
       else if rs.all (fun r => !r.success) then "failed" else "partial") := by
  unfold finalStatus
  cases h1 : rs.any (fun r => !r.success) with
  | false =>
      have hall : rs.all (fun r => r.success) = true := by
        rw [List.all_eq_true]
        intro r hr
        by_contra hc
        have hs : r.success = false := by simpa using hc
        have hany : (rs.any fun r => !r.success) = true :=
          List.any_eq_true.2 ⟨r, hr, by simp [hs]⟩
        simp [h1] at hany
      simp [h1, hall]
  | true =>
      obtain ⟨r0, hr0, hn0⟩ := List.any_eq_true.1 h1
      have hnall : rs.all (fun r => r.success) = false := by
        rcases hallv : rs.all (fun r => r.success) with _ | _
        · rfl
        · exact absurd (List.all_eq_true.1 hallv r0 hr0) (by simpa using hn0)
      cases h2 : rs.any (fun r => r.success) with
      | true =>
          obtain ⟨r1, hr1, hs1⟩ := List.any_eq_true.1 h2
          have hnall2 : rs.all (fun r => !r.success) = false := by
            rcases hallv : rs.all (fun r => !r.success) with _ | _
            · rfl
            · exact absurd (List.all_eq_true.1 hallv r1 hr1) (by simp [hs1])
          simp [h1, h2, hnall, hnall2]
      | false =>
          have hall2 : rs.all (fun r => !r.success) = true := by
            rw [List.all_eq_true]
            intro r hr
            by_contra hc
            have hs : r.success = true := by simpa using hc
            have hany : (rs.any fun r => r.success) = true :=
              List.any_eq_true.2 ⟨r, hr, hs⟩
            simp [h2] at hany
          simp [h1, h2, hnall, hall2]

/-- C4: `final_status` of an execution report is `completed` when every
recorded ExecutionResult succeeded (in particular when there are none),
`failed` when none succeeded (and at least one was recorded), and
`partial` otherwise. -/
theorem final_status_characterization (env : ExecEnv) (vp : ValidatedPlan) :
    (executePlan env vp).final_status =
      (if (executePlan env vp).execution_results.all (fun r => r.success)
        then "completed"
       else if (executePlan env vp).execution_results.all (fun r => !r.success)
        then "failed"
       else "partial") :=
  finalStatus_spec _

/-! ### Claim C9 -/

/-- Loop invariant of `ToolsNode.execute`: the `errors` list is exactly
the failed results, in order, with matching step id and error text. -/
def ExecInv (st : ExecState) : Prop :=
  st.errors = (st.results.filter (fun r => !r.success)).map
    (fun r => { step_id := r.step_id, error := r.error.getD "" })

theorem execStep_inv (env : ExecEnv) (allIds : List String) (st : ExecState)
    (step : PlanStep) (h : ExecInv st) : ExecInv (execStep env allIds st step) := by
  unfold ExecInv at h
  unfold execStep
  split
  · exact h
  · dsimp only
    split
    · unfold ExecInv
      simp [List.filter_append, h]
    · split
      · split
        · unfold ExecInv
          simp [List.filter_append, h]
        · unfold ExecInv
          simp [List.filter_append, h]
      · unfold ExecInv
        simp [List.filter_append, h]

theorem foldl_execStep_inv (env : ExecEnv) (allIds : List String)
    (l : List PlanStep) (st : ExecState) (h : ExecInv st) :
    ExecInv (l.foldl (execStep env allIds) st) := by
  induction l generalizing st with
  | nil => exact h
  | cons s t ih => exact ih _ (execStep_inv env allIds st s h)

theorem executePlan_errors_eq (env : ExecEnv) (vp : ValidatedPlan) :
    (executePlan env vp).errors =
      ((executePlan env vp).execution_results.filter (fun r => !r.success)).map
        (fun r => { step_id := r.step_id, error := r.error.getD "" }) :=
  foldl_execStep_inv env (allStepIds vp) vp.normalized_steps {} rfl

/-- C9: the `errors` list of an execution report consists of exactly one
entry (with matching step id and error text) per failed ExecutionResult
and nothing else; hence `errors` is empty iff every recorded result
succeeded, and the coordinator's success predicate
(`final_status in {completed, partial} and errors empty`) holds iff
`final_status = "completed"`. -/
theorem errors_iff_failures (env : ExecEnv) (vp : ValidatedPlan) :
    ((executePlan env vp).errors =
      ((executePlan env vp).execution_results.filter (fun r => !r.success)).map
        (fun r => { step_id := r.step_id, error := r.error.getD "" })) ∧
    ((executePlan env vp).errors = [] ↔
      (executePlan env vp).execution_results.all (fun r => r.success) = true) ∧
    (aggregateSuccess (executePlan env vp) = true ↔
      (executePlan env vp).final_status = "completed") := by
  have herr := executePlan_errors_eq env vp
  have hempty : (executePlan env vp).errors = [] ↔
      (executePlan env vp).execution_results.all (fun r => r.success) = true := by
    rw [herr]
    simp only [List.map_eq_nil_iff, List.filter_eq_nil_iff, List.all_eq_true]
    constructor
    · intro h r hr
      by_contra hc
      exact h r hr (by simpa using hc)
    · intro h r hr hc
      simp [h r hr] at hc
  refine ⟨herr, hempty, ?_⟩
  have hfs : (executePlan env vp).final_status =
      finalStatus (executePlan env vp).execution_results := rfl
  constructor
  · intro hagg
    have hlen : (executePlan env vp).errors.length = 0 := by
      rw [aggregateSuccess, Bool.and_eq_true] at hagg
      simpa using hagg.2
    have hall := hempty.1 (List.length_eq_zero.1 hlen)
    rw [hfs, finalStatus_spec, if_pos hall]
  · intro hcomp
    have hall : (executePlan env vp).execution_results.all
        (fun r => r.success) = true := by
      by_contra hc
      rw [hfs, finalStatus_spec, if_neg hc] at hcomp
      split at hcomp <;> simp_all
    have hnil := hempty.2 hall
    unfold aggregateSuccess
    rw [hcomp, hnil]
    decide

/-! ### Claim C3 -/

theorem stateAfter_succ (env : ExecEnv) (vp : ValidatedPlan) (i : Nat)
    (hi : i < vp.normalized_steps.length) :
    stateAfter env vp (i + 1) =
      execStep env (allStepIds vp) (stateAfter env vp i)
        vp.normalized_steps[i] := by
  unfold stateAfter
  rw [List.take_succ, List.foldl_append, List.getElem?_eq_getElem hi]
  rfl

def vpSkipDep : ValidatedPlan :=
  { plan_id := "p",
    normalized_steps :=
      [{ step_id := "s1", tool_name := "list_drones",
         dependencies := ["d0"], status := "skipped" }] }

/-- C3 (counterexample): in this ValidatedPlan the single step `s1` has the
non-empty dependency list `["d0"]`, and `"d0"` is not in the completed set
when `s1` is reached — yet `execute` records NO ExecutionResult at all for
`s1` (its status is `skipped`, so the loop moves on before the dependency
check), contradicting the claim that a failed ExecutionResult is recorded. -/
theorem dependency_gate_counterexample :
    (vpSkipDep.normalized_steps.map
      (fun s => (s.step_id, s.dependencies, s.status))) =
        [("s1", ["d0"], "skipped")] ∧
    ("d0" ∉ (stateAfter envDown vpSkipDep 0).completed) ∧
    (executePlan envDown vpSkipDep).execution_results = [] := by
  exact ⟨by decide, by decide, by decide⟩

/-- C3 (amended): for every step S of a ValidatedPlan whose status is not
`skipped` (a step marked skipped by validation is passed over silently,
with no ExecutionResult), if some dependency D of S is not in the completed
set when S is reached, then `execute` invokes no tool for S (the ghost call
log is unchanged) and instead appends a failed ExecutionResult for S whose
error message mentions D, appends a matching entry to `errors`, and adds
S's step id to the skipped set. -/
theorem dependency_gate (env : ExecEnv) (vp : ValidatedPlan) (i : Nat)
    (d : String) (hi : i < vp.normalized_steps.length)
    (hstat : vp.normalized_steps[i].status ≠ "skipped")
    (hd : d ∈ vp.normalized_steps[i].dependencies)
    (hc : d ∉ (stateAfter env vp i).completed) :
    ∃ msg, mentions msg d ∧
      stateAfter env vp (i + 1) =
        { stateAfter env vp i with
            results := (stateAfter env vp i).results ++
              [{ step_id := vp.normalized_steps[i].step_id,
                 success := false, error := some msg }],
            errors := (stateAfter env vp i).errors ++
              [{ step_id := vp.normalized_steps[i].step_id, error := msg }],
            skipped := addSet (stateAfter env vp i).skipped
              vp.normalized_steps[i].step_id } := by
  rw [stateAfter_succ env vp i hi]
  unfold execStep
  rw [if_neg (by simpa using hstat)]
  dsimp only
  set st := stateAfter env vp i with hst
  set step := vp.normalized_steps[i] with hstepdef
  set missing := step.dependencies.filter
    (fun x => !((allStepIds vp).contains x)) with hmissing
  set blocked := step.dependencies.filter
    (fun x => st.failed.contains x || st.skipped.contains x) with hblocked
  set pending := step.dependencies.filter
    (fun x => (allStepIds vp).contains x && !(st.completed.contains x) &&
      !(st.failed.contains x) && !(st.skipped.contains x)) with hpending
  have hdep : step.dependencies.isEmpty = false := by
    cases hdd : step.dependencies with
    | nil => rw [hdd] at hd; cases hd
    | cons a t => rfl
  have hcomp : st.completed.contains d = false := by
    simpa using hc
  have hsome : d ∈ missing ∨ d ∈ blocked ∨ d ∈ pending := by
    by_cases hall : d ∈ allStepIds vp
    · by_cases hfail : d ∈ st.failed
      · refine Or.inr (Or.inl ?_)
        rw [hblocked]
        exact List.mem_filter.2 ⟨hd, by simp [hfail]⟩
      · by_cases hskip : d ∈ st.skipped
        · refine Or.inr (Or.inl ?_)
          rw [hblocked]
          exact List.mem_filter.2 ⟨hd, by simp [hskip]⟩
        · refine Or.inr (Or.inr ?_)
          rw [hpending]
          exact List.mem_filter.2 ⟨hd, by simp [hall, hc, hfail, hskip]⟩
    · refine Or.inl ?_
      rw [hmissing]
      exact List.mem_filter.2 ⟨hd, by simp [hall]⟩
  have hgate : (!step.dependencies.isEmpty &&
      (!missing.isEmpty || !blocked.isEmpty || !pending.isEmpty)) = true := by
    rw [hdep]
    have : (!missing.isEmpty || !blocked.isEmpty || !pending.isEmpty) = true := by
      rcases hsome with hm | hm | hm <;>
        simp [List.isEmpty_eq_false_iff_exists_mem.2 ⟨d, hm⟩]
    simp [this]
  rw [if_pos hgate]
  refine ⟨_, ?_, rfl⟩
  apply mentions_append_left
  have hmr : ∀ pre lst, d ∈ lst →
      mentions (pre ++ pyJoin ", " lst) d := by
    intro pre lst hmem
    exact mentions_append_left _ _ _
      (mentions_pyJoin _ _ _ _ hmem (mentions_refl d))
  rcases hsome with hm | hm | hm
  · refine mentions_pyJoin _ _
      ("missing dependencies: " ++ pyJoin ", " missing) _ ?_ (hmr _ _ hm)
    have hne : missing.isEmpty = false :=
      List.isEmpty_eq_false_iff_exists_mem.2 ⟨d, hm⟩
    simp [hne]
  · refine mentions_pyJoin _ _
      ("failed/skipped dependencies: " ++ pyJoin ", " blocked) _ ?_ (hmr _ _ hm)
    have hne : blocked.isEmpty = false :=
      List.isEmpty_eq_false_iff_exists_mem.2 ⟨d, hm⟩
    simp [hne]
  · refine mentions_pyJoin _ _
      ("unmet dependencies (not completed): " ++ pyJoin ", " pending) _ ?_
      (hmr _ _ hm)
    have hne : pending.isEmpty = false :=
      List.isEmpty_eq_false_iff_exists_mem.2 ⟨d, hm⟩
    simp [hne]

def vpDepBlocked : ValidatedPlan :=
  { plan_id := "p",
    normalized_steps :=
      [{ step_id := "s2", tool_name := "list_drones",
         dependencies := ["d0"], status := "validated" }] }

/-- C3 witness: the amended theorem applied to a concrete plan whose only
step depends on the absent step `d0`. -/
theorem dependency_gate_witness :
    (vpDepBlocked.normalized_steps[0].status ≠ "skipped") ∧
    ("d0" ∈ vpDepBlocked.normalized_steps[0].dependencies) ∧
    ("d0" ∉ (stateAfter envDown vpDepBlocked 0).completed) ∧
    (∃ msg, mentions msg "d0" ∧
      stateAfter envDown vpDepBlocked 1 =
        { stateAfter envDown vpDepBlocked 0 with
            results := (stateAfter envDown vpDepBlocked 0).results ++
              [{ step_id := vpDepBlocked.normalized_steps[0].step_id,
                 success := false, error := some msg }],
            errors := (stateAfter envDown vpDepBlocked 0).errors ++
              [{ step_id := vpDepBlocked.normalized_steps[0].step_id,
                 error := msg }],
            skipped := addSet (stateAfter envDown vpDepBlocked 0).skipped
              vpDepBlocked.normalized_steps[0].step_id }) :=
  ⟨by decide, by decide, by decide,
   dependency_gate envDown vpDepBlocked 0 "d0" (by decide) (by decide)
     (by decide) (by decide)⟩

/-! ### Claim C7 -/

theorem storeGet_append_lt (σ : Store) (l : List PlanStep) (i : Nat)
    (hi : i < σ.length) : storeGet (σ ++ l) i = storeGet σ i := by
  simp [storeGet, List.getD_eq_getElem?_getD, List.getElem?_append, hi]

theorem storeGet_set_ne (σ : Store) (r i : Nat) (s : PlanStep) (h : i ≠ r) :
    storeGet (storeSet σ r s) i = storeGet σ i := by
  simp [storeGet, storeSet, List.getD_eq_getElem?_getD,
    List.getElem?_set_ne (fun hh => h hh.symm)]

theorem validateStepStore_length (c : Client) (pf : String → Option ℚ)
    (σ : Store) (r : Nat) :
    ((validateStepStore c pf σ r).1).length = σ.length + 1 := by
  unfold validateStepStore
  dsimp only
  split
  · simp [storeSet]
  · split <;> simp [storeSet]

theorem validateStepStore_frame (c : Client) (pf : String → Option ℚ)
    (σ : Store) (r i : Nat) (hi : i < σ.length) :
    storeGet ((validateStepStore c pf σ r).1) i = storeGet σ i := by
  have hne : i ≠ σ.length := Nat.ne_of_lt hi
  unfold validateStepStore
  dsimp only
  split
  · rw [storeGet_set_ne _ _ _ _ hne, storeGet_set_ne _ _ _ _ hne,
      storeGet_set_ne _ _ _ _ hne, storeGet_append_lt _ _ _ hi]
  · split
    · rw [storeGet_set_ne _ _ _ _ hne, storeGet_set_ne _ _ _ _ hne,
        storeGet_set_ne _ _ _ _ hne, storeGet_set_ne _ _ _ _ hne,
        storeGet_append_lt _ _ _ hi]
    · rw [storeGet_set_ne _ _ _ _ hne, storeGet_append_lt _ _ _ hi]

/-- C7: `validate_and_fix` never mutates the Plan it is given. In the heap
model every write of the validation pass — the tool-name rewrite, the
in-place parameter and physical-meaning fixes on `args`, and the status
update — targets the per-step working copy freshly allocated by
`PlanStep.from_dict(step.to_dict())`, so every heap cell that existed
before the call (in particular every step of the original Plan, whatever
list of references `refs` the plan holds) is unchanged afterwards, with
all its fields (`tool_name`, `args`, `status`, `dependencies`, ...) intact. -/
theorem validate_and_fix_no_mutation (c : Client) (pf : String → Option ℚ)
    (σ : Store) (refs : List Nat) (i : Nat) (hi : i < σ.length) :
    storeGet ((validateAndFixStore c pf σ refs).1) i = storeGet σ i := by
  induction refs generalizing σ with
  | nil => rfl
  | cons r rs ih =>
      show storeGet ((validateAndFixStore c pf
        ((validateStepStore c pf σ r).1) rs).1) i = storeGet σ i
      rw [ih ((validateStepStore c pf σ r).1)
        (by rw [validateStepStore_length]; omega)]
      exact validateStepStore_frame c pf σ r i hi

def stepHome : PlanStep :=
  { step_id := "s1", tool_name := "return_home",
    args := [("drone_id", PyVal.str "$d"), ("altitude", PyVal.num 1000)] }

/-- C7 witness: the frame theorem applied to a one-step heap whose step
has a placeholder drone_id and an out-of-range altitude (both of which the
validator fixes — on the copy). -/
theorem validate_and_fix_no_mutation_witness :
    0 < ([stepHome] : Store).length ∧
    storeGet ((validateAndFixStore clientNone pfNone [stepHome] [0]).1) 0 =
      storeGet [stepHome] 0 :=
  ⟨by decide,
   validate_and_fix_no_mutation clientNone pfNone [stepHome] [0] 0 (by decide)⟩

/-! ### Claim C8 -/

/-- C8: the coordinator boundary never propagates an exception: whenever
any phase of the pipeline — planning, validation, execution or
aggregation — raises, `MultiAgentCoordinator.execute` returns a result
record with `success=false` whose output string embeds the exception text
(by construction the model is a total function, so no exception escapes). -/
theorem coordinator_catches_exceptions (env : CoordEnv) (ui e : String) :
    (env.plan ui = Except.error e →
      (coordinatorExecute env ui).success = false ∧
      mentions (coordinatorExecute env ui).output e) ∧
    (∀ p, env.plan ui = Except.ok p → p.steps.isEmpty = false →
      env.validate p = Except.error e →
      (coordinatorExecute env ui).success = false ∧
      mentions (coordinatorExecute env ui).output e) ∧
    (∀ p v, env.plan ui = Except.ok p → p.steps.isEmpty = false →
      env.validate p = Except.ok v → v.is_valid = true →
      env.exec v = Except.error e →
      (coordinatorExecute env ui).success = false ∧
      mentions (coordinatorExecute env ui).output e) ∧
    (∀ p v r, env.plan ui = Except.ok p → p.steps.isEmpty = false →
      env.validate p = Except.ok v → v.is_valid = true →
      env.exec v = Except.ok r →
      env.aggregate p v r = Except.error e →
      (coordinatorExecute env ui).success = false ∧
      mentions (coordinatorExecute env ui).output e) := by
  have hm : mentions (errorResult e).output e := by
    unfold errorResult
    exact mentions_append_left _ _ _ (mentions_refl e)
  refine ⟨?_, ?_, ?_, ?_⟩
  · intro hp
    have : coordinatorExecute env ui = errorResult e := by
      unfold coordinatorExecute coordinatorBody
      rw [hp]
    rw [this]
    exact ⟨rfl, hm⟩
  · intro p hp hne hv
    have : coordinatorExecute env ui = errorResult e := by
      unfold coordinatorExecute coordinatorBody
      simp [hp, hne, hv]
    rw [this]
    exact ⟨rfl, hm⟩
  · intro p v hp hne hv hvalid hx
    have : coordinatorExecute env ui = errorResult e := by
      unfold coordinatorExecute coordinatorBody
      simp [hp, hne, hv, hvalid, hx]
    rw [this]
    exact ⟨rfl, hm⟩
  · intro p v r hp hne hv hvalid hx ha
    have : coordinatorExecute env ui = errorResult e := by
      unfold coordinatorExecute coordinatorBody
      simp [hp, hne, hv, hvalid, hx, ha]
    rw [this]
    exact ⟨rfl, hm⟩

def envBoom : CoordEnv :=
  { plan := fun _ => Except.error "boom",
    validate := fun _ => Except.error "unused",
    exec := fun _ => Except.error "unused",
    aggregate := fun _ _ _ => Except.error "unused" }

/-- C8 witness: a pipeline whose planner raises is converted into a
failure result embedding the exception text. -/
theorem coordinator_catches_exceptions_witness :
    envBoom.plan "go" = Except.error "boom" ∧
    ((coordinatorExecute envBoom "go").success = false ∧
      mentions (coordinatorExecute envBoom "go").output "boom") :=
  ⟨rfl, (coordinator_catches_exceptions envBoom "go" "boom").1 rfl⟩

/-! ### Claim C5 -/

/-- The fleet roster never resolves a placeholder to a value that is
itself a `$`-prefixed string. -/
def noDollarResolution (c : Client) : Prop :=
  ∀ s, resolveDroneRef c = some (PyVal.str s) → pyStartsWith s "$" = false

/-- Post-validation invariant of the `drone_id` value: if it is still a
`$`-placeholder, resolution is unavailable (so revalidation emits nothing). -/
def droneValOK (c : Client) (o : Option PyVal) : Prop :=
  ∀ s, o = some (PyVal.str s) → pyStartsWith s "$" = true →
    resolveDroneRef c = none

/-- Post-validation invariant of the `altitude` value. -/
def altValOK (o : Option PyVal) : Prop :=
  ∀ q, o = some (PyVal.num q) → ¬q < 0 ∧ ¬q > 500

/-- Post-validation invariant of a coordinate value: no longer a string. -/
def notStrVal (o : Option PyVal) : Prop :=
  ∀ s, o ≠ some (PyVal.str s)

/-- Post-validation invariant of a movement coordinate value. -/
def moveValOK (o : Option PyVal) : Prop :=
  ∀ q, o = some (PyVal.num q) → ¬|q| > 10000

/-- Post-validation invariant of the `speed` value. -/
def speedValOK (o : Option PyVal) : Prop :=
  ∀ q, o = some (PyVal.num q) → ¬q > 50 ∧ ¬q ≤ 0

/-- A normalized step on which revalidation has nothing left to do. -/
def StepClean (c : Client) (s : PlanStep) : Prop :=
  availableToolNames.contains s.tool_name = true ∧
  droneValOK c (dictGet s.args "drone_id") ∧
  altValOK (dictGet s.args "altitude") ∧
  notStrVal (dictGet s.args "x") ∧ notStrVal (dictGet s.args "y") ∧
  notStrVal (dictGet s.args "z") ∧
  ((["move_to", "move_towards"].contains s.tool_name) = true →
    moveValOK (dictGet s.args "x") ∧ moveValOK (dictGet s.args "y") ∧
    moveValOK (dictGet s.args "z")) ∧
  speedValOK (dictGet s.args "speed")

theorem fixDroneId_noop (c : Client) (sid : String) (args : PyDict)
    (h : droneValOK c (dictGet args "drone_id")) :
    fixDroneId c sid args = (args, []) := by
  unfold fixDroneId
  cases hdg : dictGet args "drone_id" with
  | none => rfl
  | some v =>
      cases v with
      | str s =>
          by_cases hS : pyStartsWith s "$" = true
          · simp [hS, h s hdg hS]
          · simp [hS]
      | num q => rfl
      | null => rfl
      | other => rfl

theorem fixAltitude_noop (sid : String) (args : PyDict)
    (h : altValOK (dictGet args "altitude")) :
    fixAltitude sid args = (args, []) := by
  unfold fixAltitude
  cases hdg : dictGet args "altitude" with
  | none => rfl
  | some v =>
      cases v with
      | str s => rfl
      | num q =>
          obtain ⟨h1, h2⟩ := h q hdg
          simp [h1, h2]
      | null => rfl
      | other => rfl

theorem fixCoordParam_noop (pf : String → Option ℚ) (sid key : String)
    (args : PyDict) (h : notStrVal (dictGet args key)) :
    fixCoordParam pf sid key args = (args, []) := by
  unfold fixCoordParam
  cases hdg : dictGet args key with
  | none => rfl
  | some v =>
      cases v with
      | str s => exact absurd hdg (h s)
      | num q => rfl
      | null => rfl
      | other => rfl

theorem fixMoveCoord_noop (sid key : String) (args : PyDict)
    (h : moveValOK (dictGet args key)) :
    fixMoveCoord sid key args = (args, []) := by
  unfold fixMoveCoord
  cases hdg : dictGet args key with
  | none => rfl
  | some v =>
      cases v with
      | str s => rfl
      | num q => simp [h q hdg]
      | null => rfl
      | other => rfl

theorem fixSpeed_noop (sid : String) (args : PyDict)
    (h : speedValOK (dictGet args "speed")) :
    fixSpeed sid args = (args, []) := by
  unfold fixSpeed
  cases hdg : dictGet args "speed" with
  | none => rfl
  | some v =>
      cases v with
      | str s => rfl
      | num q =>
          obtain ⟨h1, h2⟩ := h q hdg
          simp [h1, h2]
      | null => rfl
      | other => rfl

theorem vafParams_noop (c : Client) (pf : String → Option ℚ) (s : PlanStep)
    (htool : availableToolNames.contains s.tool_name = true)
    (hd : droneValOK c (dictGet s.args "drone_id"))
    (ha : altValOK (dictGet s.args "altitude"))
    (hx : notStrVal (dictGet s.args "x")) (hy : notStrVal (dictGet s.args "y"))
    (hz : notStrVal (dictGet s.args "z")) :
    validateAndFixParameters c pf s = (s, []) := by
  unfold validateAndFixParameters
  simp only [htool, if_true]
  rw [fixDroneId_noop c s.step_id s.args hd]
  simp only
  rw [fixAltitude_noop s.step_id s.args ha]
  simp only
  rw [fixCoordParam_noop pf s.step_id "x" s.args hx]
  simp only
  rw [fixCoordParam_noop pf s.step_id "y" s.args hy]
  simp only
  rw [fixCoordParam_noop pf s.step_id "z" s.args hz]
  simp

theorem vPhysical_noop (s : PlanStep)
    (hmove : (["move_to", "move_towards"].contains s.tool_name) = true →
      moveValOK (dictGet s.args "x") ∧ moveValOK (dictGet s.args "y") ∧
      moveValOK (dictGet s.args "z"))
    (hs : speedValOK (dictGet s.args "speed")) :
    validatePhysicalMeaning s = (s, []) := by
  unfold validatePhysicalMeaning
  by_cases hm : (["move_to", "move_towards"].contains s.tool_name) = true
  · obtain ⟨hx, hy, hz⟩ := hmove hm
    simp only [hm, if_true]
    rw [fixMoveCoord_noop s.step_id "x" s.args hx]
    simp only
    rw [fixMoveCoord_noop s.step_id "y" s.args hy]
    simp only
    rw [fixMoveCoord_noop s.step_id "z" s.args hz]
    simp only
    rw [fixSpeed_noop s.step_id s.args hs]
    simp
  · simp only [hm, Bool.false_eq_true, if_false]
    rw [fixSpeed_noop s.step_id s.args hs]
    simp

theorem validateStep_noop (c : Client) (pf : String → Option ℚ)
    (s : PlanStep) (h : StepClean c s) :
    validateStep c pf s = ({ s with status := "validated" }, [], []) := by
  obtain ⟨htool, hd, ha, hx, hy, hz, hmove, hs⟩ := h
  unfold validateStep
  simp only [htool, if_true]
  rw [vafParams_noop c pf s htool hd ha hx hy hz]
  simp only
  rw [vPhysical_noop s hmove hs]
  simp

theorem fixDroneId_establish (c : Client) (sid : String) (args : PyDict)
    (hres : noDollarResolution c) :
    droneValOK c (dictGet (fixDroneId c sid args).1 "drone_id") := by
  unfold fixDroneId
  cases hdg : dictGet args "drone_id" with
  | none => intro s h hS; rw [hdg] at h; cases h
  | some v =>
      cases v with
      | str s =>
          by_cases hS : pyStartsWith s "$" = true
          · cases hr : resolveDroneRef c with
            | none => simp only [hS, if_true, hr]; intro _ _ _; exact hr
            | some v =>
                simp only [hS, if_true, hr]
                intro s' h' hS'
                rw [dictGet_dictSet_self] at h'
                have hv : v = PyVal.str s' := by
                  injection h'
                rw [hv] at hr
                exact absurd hS' (by rw [hres s' hr]; simp)
          · simp only [hS, Bool.false_eq_true, if_false]
            intro s' h' hS'
            rw [hdg] at h'
            have : s' = s := by
              injection h' with h''
              injection h'' with h''
              exact h''.symm
            rw [this] at hS'
            exact absurd hS' hS
      | num q => intro s h _; rw [hdg] at h; cases h
      | null => intro s h _; rw [hdg] at h; cases h
      | other => intro s h _; rw [hdg] at h; cases h

theorem fixAltitude_establish (sid : String) (args : PyDict) :
    altValOK (dictGet (fixAltitude sid args).1 "altitude") := by
  unfold fixAltitude
  cases hdg : dictGet args "altitude" with
  | none => intro q h; rw [hdg] at h; cases h
  | some v =>
      cases v with
      | str s => intro q h; rw [hdg] at h; cases h
      | num a =>
          by_cases h1 : a < 0
          · simp only [h1, if_true]
            intro q h
            rw [dictGet_dictSet_self] at h
            have : (5 : ℚ) = q := by
              injection h with h'
              injection h' with h'
            rw [← this]
            norm_num
          · by_cases h2 : a > 500
            · simp only [h1, if_false, h2, if_true]
              intro q h
              rw [dictGet_dictSet_self] at h
              have : (120 : ℚ) = q := by
                injection h with h'
                injection h' with h'
              rw [← this]
              norm_num
            · simp only [h1, if_false, h2]
              intro q h
              rw [hdg] at h
              have : a = q := by
                injection h with h'
                injection h' with h'
              rw [← this]
              exact ⟨h1, h2⟩
      | null => intro q h; rw [hdg] at h; cases h
      | other => intro q h; rw [hdg] at h; cases h

theorem fixCoordParam_establish (pf : String → Option ℚ) (sid key : String)
    (args : PyDict) :
    notStrVal (dictGet (fixCoordParam pf sid key args).1 key) := by
  unfold fixCoordParam
  cases hdg : dictGet args key with
  | none => intro s; rw [hdg]; simp
  | some v =>
      cases v with
      | str s =>
          cases hpf : pf s with
          | some q =>
              simp only [hpf]
              intro s'
              rw [dictGet_dictSet_self]
              simp
          | none =>
              simp only [hpf]
              intro s'
              rw [dictGet_dictSet_self]
              simp
      | num q => intro s; rw [hdg]; simp
      | null => intro s; rw [hdg]; simp
      | other => intro s; rw [hdg]; simp

theorem fixMoveCoord_establish (sid key : String) (args : PyDict) :
    moveValOK (dictGet (fixMoveCoord sid key args).1 key) := by
  unfold fixMoveCoord
  cases hdg : dictGet args key with
  | none => intro q h; rw [hdg] at h; cases h
  | some v =>
      cases v with
      | str s => intro q h; rw [hdg] at h; cases h
      | num a =>
          by_cases h1 : |a| > 10000
          · simp only [h1, if_true]
            intro q h
            rw [dictGet_dictSet_self] at h
            have : (0 : ℚ) = q := by
              injection h with h'
              injection h' with h'
            rw [← this]
            norm_num
          · simp only [h1, if_false]
            intro q h
            rw [hdg] at h
            have : a = q := by
              injection h with h'
              injection h' with h'
            rw [← this]
            exact h1
      | null => intro q h; rw [hdg] at h; cases h
      | other => intro q h; rw [hdg] at h; cases h

theorem fixMoveCoord_preserves_notStr (sid key : String) (args : PyDict)
    (h : notStrVal (dictGet args key)) :
    notStrVal (dictGet (fixMoveCoord sid key args).1 key) := by
  unfold fixMoveCoord
  cases hdg : dictGet args key with
  | none => exact fun s => by rw [hdg]; simp
  | some v =>
      cases v with
      | str s => exact absurd hdg (h s)
      | num a =>
          by_cases h1 : |a| > 10000
          · simp only [h1, if_true]
            intro s'
            rw [dictGet_dictSet_self]
            simp
          · simp only [h1, if_false]
            intro s'
            rw [hdg]
            simp
      | null => exact fun s => by rw [hdg]; simp
      | other => exact fun s => by rw [hdg]; simp

theorem fixSpeed_establish (sid : String) (args : PyDict) :
    speedValOK (dictGet (fixSpeed sid args).1 "speed") := by
  unfold fixSpeed
  cases hdg : dictGet args "speed" with
  | none => intro q h; rw [hdg] at h; cases h
  | some v =>
      cases v with
      | str s => intro q h; rw [hdg] at h; cases h
      | num a =>
          by_cases h1 : a > 50
          · simp only [h1, if_true]
            intro q h
            rw [dictGet_dictSet_self] at h
            have : (10 : ℚ) = q := by
              injection h with h'
              injection h' with h'
            rw [← this]
            norm_num
          · by_cases h2 : a ≤ 0
            · simp only [h1, if_false, h2, if_true]
              intro q h
              rw [dictGet_dictSet_self] at h
              have : (5 : ℚ) = q := by
                injection h with h'
                injection h' with h'
              rw [← this]
              norm_num
            · simp only [h1, if_false, h2]
              intro q h
              rw [hdg] at h
              have : a = q := by
                injection h with h'
                injection h' with h'
              rw [← this]
              exact ⟨h1, h2⟩
      | null => intro q h; rw [hdg] at h; cases h
      | other => intro q h; rw [hdg] at h; cases h

theorem vafParams_clean (c : Client) (pf : String → Option ℚ) (s : PlanStep)
    (hres : noDollarResolution c)
    (htool : availableToolNames.contains s.tool_name = true) :
    droneValOK c (dictGet (validateAndFixParameters c pf s).1.args "drone_id") ∧
    altValOK (dictGet (validateAndFixParameters c pf s).1.args "altitude") ∧
    notStrVal (dictGet (validateAndFixParameters c pf s).1.args "x") ∧
    notStrVal (dictGet (validateAndFixParameters c pf s).1.args "y") ∧
    notStrVal (dictGet (validateAndFixParameters c pf s).1.args "z") := by
  unfold validateAndFixParameters
  simp only [htool, if_true]
  refine ⟨?_, ?_, ?_, ?_, ?_⟩
  · rw [fixCoordParam_get_ne _ _ _ _ _ (by decide),
      fixCoordParam_get_ne _ _ _ _ _ (by decide),
      fixCoordParam_get_ne _ _ _ _ _ (by decide),
      fixAltitude_get_ne _ _ _ (by decide)]
    exact fixDroneId_establish c s.step_id s.args hres
  · rw [fixCoordParam_get_ne _ _ _ _ _ (by decide),
      fixCoordParam_get_ne _ _ _ _ _ (by decide),
      fixCoordParam_get_ne _ _ _ _ _ (by decide)]
    exact fixAltitude_establish s.step_id _
  · rw [fixCoordParam_get_ne _ _ _ _ _ (by decide),
      fixCoordParam_get_ne _ _ _ _ _ (by decide)]
    exact fixCoordParam_establish pf s.step_id "x" _
  · rw [fixCoordParam_get_ne _ _ _ _ _ (by decide)]
    exact fixCoordParam_establish pf s.step_id "y" _
  · exact fixCoordParam_establish pf s.step_id "z" _

theorem vPhysical_clean (c : Client) (s : PlanStep)
    (hd : droneValOK c (dictGet s.args "drone_id"))
    (ha : altValOK (dictGet s.args "altitude"))
    (hx : notStrVal (dictGet s.args "x"))
    (hy : notStrVal (dictGet s.args "y"))
    (hz : notStrVal (dictGet s.args "z")) :
    droneValOK c (dictGet (validatePhysicalMeaning s).1.args "drone_id") ∧
    altValOK (dictGet (validatePhysicalMeaning s).1.args "altitude") ∧
    notStrVal (dictGet (validatePhysicalMeaning s).1.args "x") ∧
    notStrVal (dictGet (validatePhysicalMeaning s).1.args "y") ∧
    notStrVal (dictGet (validatePhysicalMeaning s).1.args "z") ∧
    ((["move_to", "move_towards"].contains s.tool_name) = true →
      moveValOK (dictGet (validatePhysicalMeaning s).1.args "x") ∧
      moveValOK (dictGet (validatePhysicalMeaning s).1.args "y") ∧
      moveValOK (dictGet (validatePhysicalMeaning s).1.args "z")) ∧
    speedValOK (dictGet (validatePhysicalMeaning s).1.args "speed") := by
  unfold validatePhysicalMeaning
  by_cases hm : (["move_to", "move_towards"].contains s.tool_name) = true
  · simp only [hm, if_true]
    refine ⟨?_, ?_, ?_, ?_, ?_, ?_, ?_⟩
    · rw [fixSpeed_get_ne _ _ _ (by decide),
        fixMoveCoord_get_ne _ _ _ _ (by decide),
        fixMoveCoord_get_ne _ _ _ _ (by decide),
        fixMoveCoord_get_ne _ _ _ _ (by decide)]
      exact hd
    · rw [fixSpeed_get_ne _ _ _ (by decide),
        fixMoveCoord_get_ne _ _ _ _ (by decide),
        fixMoveCoord_get_ne _ _ _ _ (by decide),
        fixMoveCoord_get_ne _ _ _ _ (by decide)]
      exact ha
    · rw [fixSpeed_get_ne _ _ _ (by decide),
        fixMoveCoord_get_ne _ _ _ _ (by decide),
        fixMoveCoord_get_ne _ _ _ _ (by decide)]
      exact fixMoveCoord_preserves_notStr _ _ _ hx
    · rw [fixSpeed_get_ne _ _ _ (by decide),
        fixMoveCoord_get_ne _ _ _ _ (by decide)]
      apply fixMoveCoord_preserves_notStr
      rw [fixMoveCoord_get_ne _ _ _ _ (by decide)]
      exact hy
    · rw [fixSpeed_get_ne _ _ _ (by decide)]
      apply fixMoveCoord_preserves_notStr
      rw [fixMoveCoord_get_ne _ _ _ _ (by decide),
        fixMoveCoord_get_ne _ _ _ _ (by decide)]
      exact hz
    · intro _
      refine ⟨?_, ?_, ?_⟩
      · rw [fixSpeed_get_ne _ _ _ (by decide),
          fixMoveCoord_get_ne _ _ _ _ (by decide),
          fixMoveCoord_get_ne _ _ _ _ (by decide)]
        exact fixMoveCoord_establish s.step_id "x" _
      · rw [fixSpeed_get_ne _ _ _ (by decide),
          fixMoveCoord_get_ne _ _ _ _ (by decide)]
        exact fixMoveCoord_establish s.step_id "y" _
      · rw [fixSpeed_get_ne _ _ _ (by decide)]
        exact fixMoveCoord_establish s.step_id "z" _
    · exact fixSpeed_establish s.step_id _
  · simp only [hm, Bool.false_eq_true, if_false]
    refine ⟨?_, ?_, ?_, ?_, ?_, ?_, ?_⟩
    · rw [fixSpeed_get_ne _ _ _ (by decide)]; exact hd
    · rw [fixSpeed_get_ne _ _ _ (by decide)]; exact ha
    · rw [fixSpeed_get_ne _ _ _ (by decide)]; exact hx
    · rw [fixSpeed_get_ne _ _ _ (by decide)]; exact hy
    · rw [fixSpeed_get_ne _ _ _ (by decide)]; exact hz
    · intro hmm; exact hmm.elim
    · exact fixSpeed_establish s.step_id _

theorem StepClean_status (c : Client) (s : PlanStep) (st : String)
    (h : StepClean c s) : StepClean c { s with status := st } := by
  unfold StepClean at h ⊢
  simpa using h

theorem validateStep_clean (c : Client) (pf : String → Option ℚ)
    (s : PlanStep) (hres : noDollarResolution c)
    (htool : availableToolNames.contains s.tool_name = true) :
    StepClean c (validateStep c pf s).1 := by
  obtain ⟨hd, ha, hx, hy, hz⟩ := vafParams_clean c pf s hres htool
  have hptool : (validateAndFixParameters c pf s).1.tool_name = s.tool_name := by
    rw [vafParams_step]
  obtain ⟨hd2, ha2, hx2, hy2, hz2, hmove2, hs2⟩ :=
    vPhysical_clean c (validateAndFixParameters c pf s).1 hd ha hx hy hz
  have hq : StepClean c
      (validatePhysicalMeaning (validateAndFixParameters c pf s).1).1 := by
    unfold StepClean
    have hqt : (validatePhysicalMeaning
        (validateAndFixParameters c pf s).1).1.tool_name = s.tool_name := by
      rw [show (validatePhysicalMeaning
        (validateAndFixParameters c pf s).1).1.tool_name =
          (validateAndFixParameters c pf s).1.tool_name from rfl, hptool]
    refine ⟨by rw [hqt]; exact htool, hd2, ha2, hx2, hy2, hz2, ?_, hs2⟩
    intro hm
    apply hmove2
    rw [hptool]
    rw [hqt] at hm
    exact hm
  unfold validateStep
  simp only [htool, if_true]
  exact StepClean_status c _ _ hq

theorem validateSteps_normalized_mem (c : Client) (pf : String → Option ℚ)
    (l : List PlanStep) (x : PlanStep) (hx : x ∈ (validateSteps c pf l).1) :
    ∃ s ∈ l, x = (validateStep c pf s).1 := by
  induction l with
  | nil => cases hx
  | cons a t ih =>
      rcases List.mem_cons.1 hx with h | h
      · exact ⟨a, List.mem_cons_self a t, h⟩
      · obtain ⟨s, hs, he⟩ := ih h
        exact ⟨s, List.mem_cons_of_mem a hs, he⟩

theorem validateSteps_fixes_nil (c : Client) (pf : String → Option ℚ)
    (l : List PlanStep) (h : ∀ s ∈ l, StepClean c s) :
    (validateSteps c pf l).2.1 = [] := by
  induction l with
  | nil => rfl
  | cons a t ih =>
      show (validateStep c pf a).2.1 ++ (validateSteps c pf t).2.1 = []
      rw [validateStep_noop c pf a (h a (List.mem_cons_self a t)),
        ih (fun s hs => h s (List.mem_cons_of_mem a hs))]
      rfl

/-- C5 (amended): validation is idempotent on an already-valid plan
provided the fleet's placeholder resolution does not substitute a value
that is itself a `$`-prefixed string: if `validate_and_fix` returned a
ValidatedPlan with `is_valid=true`, revalidating a Plan wrapping its
`normalized_steps` (under the unchanged fleet state) records zero fixes. -/
theorem validation_idempotent (c : Client) (pf : String → Option ℚ)
    (p p2 : Plan) (hres : noDollarResolution c)
    (hv : (validateAndFix c pf p).is_valid = true)
    (hp2 : p2.steps = (validateAndFix c pf p).normalized_steps) :
    (validateAndFix c pf p2).fixes = [] := by
  have htools : ∀ s ∈ p.steps, s.tool_name ∈ availableToolNames := by
    apply (cnt_validateSteps c pf p.steps).1
    simp only [validateAndFix, beq_iff_eq] at hv
    exact hv
  have hclean : ∀ x ∈ (validateAndFix c pf p).normalized_steps,
      StepClean c x := by
    intro x hx
    obtain ⟨s, hs, he⟩ := validateSteps_normalized_mem c pf p.steps x hx
    rw [he]
    exact validateStep_clean c pf s hres (by simpa using htools s hs)
  show (validateSteps c pf p2.steps).2.1 = []
  rw [hp2]
  exact validateSteps_fixes_nil c pf _ hclean

/-- The fleet state for the C5 counterexample: the roster's first drone id
is itself a `$`-prefixed string. -/
def clientDollar : Client := ⟨some [[("id", PyVal.str "$weird")]]⟩

def planDollar : Plan :=
  { steps := [{ step_id := "s1", tool_name := "take_off",
                args := [("drone_id", PyVal.str "$d")] }] }

def planDollar2 : Plan :=
  { steps := (validateAndFix clientDollar pfNone planDollar).normalized_steps }

/-- C5 (counterexample): with a fleet whose first drone id is the
`$`-prefixed string `$weird`, the first validation is valid and resolves
the placeholder to `$weird`; revalidating the normalized steps under the
same fleet state resolves the still-`$`-prefixed value again and records a
new `resolved_reference` fix — the fixes list is not empty, contradicting
the claim. -/
theorem validation_idempotent_counterexample :
    (validateAndFix clientDollar pfNone planDollar).is_valid = true ∧
    planDollar2.steps =
      (validateAndFix clientDollar pfNone planDollar).normalized_steps ∧
    (validateAndFix clientDollar pfNone planDollar2).fixes ≠ [] := by
  exact ⟨by decide, rfl, by decide⟩

def planAltFix : Plan :=
  { steps := [{ step_id := "s1", tool_name := "take_off",
                args := [("altitude", PyVal.num 1000)] }] }

def planAltFix2 : Plan :=
  { steps := (validateAndFix clientNone pfNone planAltFix).normalized_steps }

theorem clientNone_noDollar : noDollarResolution clientNone := by
  intro s h
  simp [resolveDroneRef, clientNone] at h

/-- C5 witness: the amended theorem applied to a valid plan whose altitude
got clamped on the first pass. -/
theorem validation_idempotent_witness :
    noDollarResolution clientNone ∧
    (validateAndFix clientNone pfNone planAltFix).is_valid = true ∧
    planAltFix2.steps =
      (validateAndFix clientNone pfNone planAltFix).normalized_steps ∧
    (validateAndFix clientNone pfNone planAltFix2).fixes = [] :=
  ⟨clientNone_noDollar, by decide, rfl,
   validation_idempotent clientNone pfNone planAltFix planAltFix2
     clientNone_noDollar (by decide) rfl⟩

/-! ### Claim C10, witness -/

/-- Sanity link: the report fields of `executePlan` are the fields of the
loop state after processing every step. -/
theorem executePlan_eq_stateAfter (env : ExecEnv) (vp : ValidatedPlan) :
    (executePlan env vp).execution_results =
      (stateAfter env vp vp.normalized_steps.length).results ∧
    (executePlan env vp).errors =
      (stateAfter env vp vp.normalized_steps.length).errors := by
  unfold executePlan stateAfter
  rw [List.take_length]
  exact ⟨rfl, rfl⟩

/-- C10 witness: the theorem applied to the concrete empty-tool-name plan. -/
theorem empty_tool_name_resolves_witness :
    stepEmptyTool.tool_name = "" ∧ planEmptyTool.steps = [stepEmptyTool] ∧
    (("" ∈ availableToolNames) = False ∧
     ((validateAndFix clientNone pfNone planEmptyTool).normalized_steps.map
       (fun s => (s.tool_name, s.status))) = [("list_drones", "validated")]) :=
  ⟨rfl, rfl,
   empty_tool_name_resolves clientNone pfNone stepEmptyTool planEmptyTool rfl rfl⟩
